import Mathlib

/-!
Verification of the result-acquisition core of the AI_Creative service module
(editImage, generateImage, generateVideo, outpaintImage, upscaleImage and the
handleEdit caller).  Remote calls are modelled by oracles indexed by attempt
number; the unbounded retry and polling loops are modelled with an explicit
fuel parameter, fuel exhaustion being reported as a distinguished
non-termination outcome.  Waiting is recorded as an observable event carrying
the delay in milliseconds.
-/

namespace GeminiService

/-! Data model of a generateContent response: candidates, each with optional
content holding an optional list of typed parts; a part optionally carries
inline data (bytes plus MIME type) and optional text. -/

structure InlineData where
  data : String
  mimeType : String
deriving DecidableEq

structure ContentPart where
  inlineData : Option InlineData
  text : Option String
deriving DecidableEq

structure Content where
  parts : Option (List ContentPart)
deriving DecidableEq

structure Candidate where
  content : Option Content
deriving DecidableEq

structure GenContentResponse where
  candidates : Option (List Candidate)
  text : Option String
deriving DecidableEq

/-- The JS primitive String.prototype.startsWith, as a computable test on the
underlying character lists. -/
def jsStartsWith (s p : String) : Bool := p.data.isPrefixOf s.data

/-- The JS primitive String.prototype.trim: whitespace removed from both
ends. -/
def jsTrim (s : String) : String :=
  ⟨((s.data.dropWhile Char.isWhitespace).reverse.dropWhile Char.isWhitespace).reverse⟩

/-- The success predicate of the retry loop: a part whose inline data carries
a MIME type starting with image/, as in the source's find predicate. -/
def isImagePart (p : ContentPart) : Bool :=
  match p.inlineData with
  | some d => jsStartsWith d.mimeType "image/"
  | none => false

/-- First image-typed part of one candidate's parts (optional chaining of
content and parts, then find). -/
def candImagePart (c : Candidate) : Option ContentPart :=
  match c.content with
  | none => none
  | some ct =>
    match ct.parts with
    | none => none
    | some ps => ps.find? isImagePart

/-- The source's lookup response.candidates?.[0]?.content?.parts?.find:
only the FIRST candidate is inspected. -/
def findImagePart (r : GenContentResponse) : Option ContentPart :=
  match r.candidates with
  | some (c :: _) => candImagePart c
  | _ => none

/-- The data returned on success: the guard imagePart and imagePart.inlineData
followed by imagePart.inlineData.data. -/
def imageData (r : GenContentResponse) : Option String :=
  match findImagePart r with
  | some pt =>
    match pt.inlineData with
    | some d => some d.data
    | none => none
  | none => none

/-- Whether one candidate holds any image-typed part (specification-side
notion used to phrase hypotheses about whole responses). -/
def candHasImagePart (c : Candidate) : Bool :=
  match c.content with
  | none => false
  | some ct =>
    match ct.parts with
    | none => false
    | some ps => ps.any isImagePart

/-- Whether any candidate of the response holds an image-typed part. -/
def respHasImagePart (r : GenContentResponse) : Bool :=
  match r.candidates with
  | some cs => cs.any candHasImagePart
  | none => false

/-- Outcome of one remote generateContent attempt: a response, or a thrown
fault carrying the message of an Error instance (none models a thrown
non-Error value, which has no message). -/
inductive RemoteOutcome where
  | ok (response : GenContentResponse)
  | fault (message : Option String)
deriving DecidableEq

structure EditRequest where
  data : String
  mimeType : String
  prompt : String
deriving DecidableEq

inductive EditOutcome where
  | image (data : String)
  | error (message : String)
  | diverges
deriving DecidableEq

/-- Observable summary of one editImage run: terminal outcome, number of
remote calls performed, and the list of inter-attempt delays (in ms). -/
structure EditRun where
  outcome : EditOutcome
  numCalls : Nat
  delays : List Nat
deriving DecidableEq

def RETRY_DELAY : Nat := 1000

/-- The catch clause of editImage: an Error is re-thrown with the operation
name prefixed to its message, anything else becomes the generic unknown-error
message. -/
def editTranslate (m : Option String) : String :=
  match m with
  | some s => "編輯圖片失敗： " ++ s
  | none => "編輯圖片時發生未知的錯誤。"

/-- The while-true body of editImage: call the oracle at the current attempt
index, return the image data if present, otherwise wait RETRY_DELAY and
retry; a fault ends the loop through the catch clause.  Fuel exhaustion
reports divergence.  Counts are relative to the current point. -/
def editLoop (calls : Nat → EditRequest → RemoteOutcome) (req : EditRequest) :
    Nat → Nat → EditRun
  | _, 0 => ⟨.diverges, 0, []⟩
  | n, fuel+1 =>
    match calls n req with
    | .fault m => ⟨.error (editTranslate m), 1, []⟩
    | .ok r =>
      match imageData r with
      | some d => ⟨.image d, 1, []⟩
      | none =>
        let rest := editLoop calls req (n+1) fuel
        ⟨rest.outcome, rest.numCalls + 1, RETRY_DELAY :: rest.delays⟩

/-- editImage: the retry loop started at attempt 0 with the fixed request
built from image bytes, MIME type and prompt. -/
def editImage (calls : Nat → EditRequest → RemoteOutcome)
    (base64ImageData mimeType prompt : String) (fuel : Nat) : EditRun :=
  editLoop calls ⟨base64ImageData, mimeType, prompt⟩ 0 fuel

def defaultOutpaintPrompt : String :=
  "請擴展這張圖片的畫布，以符合邏輯且無縫的方式，用延伸原始場景的內容填滿新的區域。保持原始圖片的風格與畫質。"

/-- outpaintImage: delegates to editImage, using the caller's prompt when it
is truthy and trims to a truthy string, else the fixed default prompt. -/
def outpaintImage (calls : Nat → EditRequest → RemoteOutcome)
    (base64ImageData mimeType : String) (prompt : Option String) (fuel : Nat) : EditRun :=
  let finalPrompt :=
    match prompt with
    | some s => if s ≠ "" ∧ jsTrim s ≠ "" then s else defaultOutpaintPrompt
    | none => defaultOutpaintPrompt
  editImage calls base64ImageData mimeType finalPrompt fuel

def upscalePrompt : String :=
  "請將這張圖片的解析度提升至更高品質。銳化細節、減少壓縮痕跡與噪點，並增加整體清晰度，同時保持原始圖像的真實性。讓它看起來更清晰、更細膩。"

/-- upscaleImage: delegates to editImage with the fixed upscale prompt. -/
def upscaleImage (calls : Nat → EditRequest → RemoteOutcome)
    (base64ImageData mimeType : String) (fuel : Nat) : EditRun :=
  editImage calls base64ImageData mimeType upscalePrompt fuel

/-! Data model of the image-generation response. -/

structure GenImageObj where
  imageBytes : String
deriving DecidableEq

structure GenImage where
  image : GenImageObj
deriving DecidableEq

structure GenImagesResponse where
  generatedImages : Option (List GenImage)
deriving DecidableEq

inductive GenOutcome where
  | ok (bytes : String)
  | error (message : String)
deriving DecidableEq

structure GenRun where
  outcome : GenOutcome
  numCalls : Nat
deriving DecidableEq

/-- The catch clause of generateImage. -/
def genTranslate (m : Option String) : String :=
  match m with
  | some s => "圖片生成失敗： " ++ s
  | none => "生成圖片時發生未知的錯誤。"

/-- generateImage: one remote call; the first generated image's bytes when the
list is present and non-empty, else an Error thrown inside the try and hence
re-prefixed by the catch clause. -/
def generateImage (calls : Nat → String → Except (Option String) GenImagesResponse)
    (prompt : String) : GenRun :=
  match calls 0 prompt with
  | .error m => ⟨.error (genTranslate m), 1⟩
  | .ok r =>
    match r.generatedImages with
    | some (g :: _) => ⟨.ok g.image.imageBytes, 1⟩
    | some [] => ⟨.error (genTranslate (some "API 未返回任何圖片。")), 1⟩
    | none => ⟨.error (genTranslate (some "API 未返回任何圖片。")), 1⟩

/-! Data model of the video-generation job. -/

structure Video where
  uri : Option String
deriving DecidableEq

structure GeneratedVideo where
  video : Option Video
deriving DecidableEq

structure VideoResponse where
  generatedVideos : Option (List GeneratedVideo)
deriving DecidableEq

/-- The operation object returned by submission and by each status poll: the
done flag plus the optional response carrying the result locator. -/
structure VideoOperation where
  done : Bool
  response : Option VideoResponse
deriving DecidableEq

/-- Observable events of a generateVideo run, in order: a progress message
handed to the callback, the job submission, a wait (ms), a status poll
recording the handle passed to it, and the final HTTP retrieval with its
URL. -/
inductive VEvent where
  | progress (message : String)
  | submitted
  | wait (ms : Nat)
  | poll (handle : VideoOperation)
  | fetchGet (url : String)
deriving DecidableEq

inductive VOutcome where
  | ok (url : String)
  | error (message : String)
  | diverges
deriving DecidableEq

structure VideoRun where
  events : List VEvent
  outcome : VOutcome
deriving DecidableEq

structure FetchResponse where
  ok : Bool
  statusText : String
  blobData : String
deriving DecidableEq

structure VideoJobRequest where
  prompt : String
  image : Option (String × String)
deriving DecidableEq

/-- Oracles for the three remote interactions of generateVideo: job
submission, status poll (indexed by poll number, receiving the handle that
the code passes), and the HTTP retrieval of the result locator. -/
structure VideoEnv where
  submit : VideoJobRequest → Except (Option String) VideoOperation
  getOp : Nat → VideoOperation → Except (Option String) VideoOperation
  fetchUrl : String → Except (Option String) FetchResponse

def POLLING_INTERVAL : Nat := 10000

/-- The catch clause of generateVideo. -/
def vTranslate (m : Option String) : String :=
  match m with
  | some s => "影片生成失敗： " ++ s
  | none => "生成影片時發生未知的錯誤。"

def videoInitMsg : String := "正在初始化影片生成..."
def videoFetchMsg : String := "正在獲取影片..."
def videoNoLinkMsg : String := "影片生成失敗，未收到下載連結。"

def videoMessages : List String :=
  ["正在設定場景...",
   "AI 正在發揮創意...",
   "正在渲染每一幀...",
   "快好了，正在進行最後的潤飾...",
   "正在為您的影片注入魔法..."]

/-- The rotating progress message: messages at messageIndex modulo the list
length. -/
def messageAt (i : Nat) : String :=
  videoMessages.getD (i % videoMessages.length) ""

/-- The lookup operation.response?.generatedVideos?.[0]?.video?.uri. -/
def videoUri (op : VideoOperation) : Option String :=
  match op.response with
  | none => none
  | some r =>
    match r.generatedVideos with
    | some (g :: _) =>
      match g.video with
      | some v => v.uri
      | none => none
    | _ => none

/-- Modelled from the spec: the browser primitive URL.createObjectURL, which
converts the retrieved binary payload into a locally addressable handle
(an object URL); represented as an injective tagging of the payload. -/
def createObjectURL (blobData : String) : String := "objecturl:" ++ blobData

/-- The code after the polling loop: require the result locator, emit the
fetching progress message, perform one HTTP retrieval of the locator with the
credential appended, and return an object URL of the body; a missing locator
and a non-ok HTTP status are Errors thrown inside the try and hence
re-prefixed by the catch clause.  The caller-supplied progress sink is
threaded as a state of type s. -/
def finishVideo {σ : Type} (sink : σ → String → σ) (s : σ) (env : VideoEnv)
    (apiKey : String) (op : VideoOperation) : VideoRun × σ :=
  match videoUri op with
  | none => (⟨[], .error (vTranslate (some videoNoLinkMsg))⟩, s)
  | some link =>
    let url := link ++ "&key=" ++ apiKey
    let s1 := sink s videoFetchMsg
    match env.fetchUrl url with
    | .error m => (⟨[VEvent.progress videoFetchMsg, VEvent.fetchGet url], .error (vTranslate m)⟩, s1)
    | .ok resp =>
      if resp.ok then
        (⟨[VEvent.progress videoFetchMsg, VEvent.fetchGet url], .ok (createObjectURL resp.blobData)⟩, s1)
      else
        (⟨[VEvent.progress videoFetchMsg, VEvent.fetchGet url],
          .error (vTranslate (some ("無法下載影片： " ++ resp.statusText)))⟩, s1)

/-- The while-not-done polling loop: emit the next rotating message, wait
POLLING_INTERVAL, poll with the current handle and replace it wholesale with
the returned one.  A fault ends the run through the catch clause; fuel
exhaustion reports divergence. -/
def genLoop {σ : Type} (sink : σ → String → σ) (env : VideoEnv) (apiKey : String) :
    Nat → VideoOperation → Nat → Nat → σ → VideoRun × σ
  | fuel, op, mi, pi, s =>
    if op.done then finishVideo sink s env apiKey op
    else
      match fuel with
      | 0 => (⟨[], .diverges⟩, s)
      | fuel'+1 =>
        match env.getOp pi op with
        | .error m =>
          (⟨[VEvent.progress (messageAt mi), VEvent.wait POLLING_INTERVAL, VEvent.poll op],
            .error (vTranslate m)⟩, sink s (messageAt mi))
        | .ok op2 =>
          let rest := genLoop sink env apiKey fuel' op2 (mi+1) (pi+1) (sink s (messageAt mi))
          (⟨VEvent.progress (messageAt mi) :: VEvent.wait POLLING_INTERVAL ::
              VEvent.poll op :: rest.1.events, rest.1.outcome⟩, rest.2)

/-- The image field of the submission request: present exactly when both the
image data and the MIME type are truthy (non-null, non-empty) strings. -/
def mkVideoRequest (prompt : String) (base64ImageData mimeType : Option String) :
    VideoJobRequest :=
  ⟨prompt,
   match base64ImageData, mimeType with
   | some b, some m => if b ≠ "" ∧ m ≠ "" then some (b, m) else none
   | _, _ => none⟩

/-- generateVideo: emit the initialization progress message, submit the job,
run the polling loop from message index 0, then retrieve the result. -/
def generateVideo {σ : Type} (sink : σ → String → σ) (s0 : σ) (env : VideoEnv)
    (apiKey : String) (prompt : String) (base64ImageData mimeType : Option String)
    (fuel : Nat) : VideoRun × σ :=
  let s1 := sink s0 videoInitMsg
  match env.submit (mkVideoRequest prompt base64ImageData mimeType) with
  | .error m => (⟨[VEvent.progress videoInitMsg, VEvent.submitted], .error (vTranslate m)⟩, s1)
  | .ok op =>
    let rest := genLoop sink env apiKey fuel op 0 0 s1
    (⟨VEvent.progress videoInitMsg :: VEvent.submitted :: rest.1.events, rest.1.outcome⟩, rest.2)

def isPollEv : VEvent → Bool
  | .poll _ => true
  | _ => false

def isSubmitEv : VEvent → Bool
  | .submitted => true
  | _ => false

def isFetchEv : VEvent → Bool
  | .fetchGet _ => true
  | _ => false

def countEv (p : VEvent → Bool) (evs : List VEvent) : Nat :=
  (evs.filter p).length

/-- The progress messages of a run, in emission order. -/
def progressMsgs (evs : List VEvent) : List String :=
  evs.filterMap fun e =>
    match e with
    | .progress m => some m
    | _ => none

/-- The trace of n polling iterations along a status trajectory: rotating
message mi+i, wait, poll of the i-th handle. -/
def pollTrace (ops : Nat → VideoOperation) (mi j : Nat) : Nat → List VEvent
  | 0 => []
  | n+1 =>
    VEvent.progress (messageAt mi) :: VEvent.wait POLLING_INTERVAL ::
      VEvent.poll (ops j) :: pollTrace ops (mi+1) (j+1) n

/-- Sink state after consuming n rotating messages starting at index mi. -/
def sinkAfter {σ : Type} (sink : σ → String → σ) (s : σ) (mi : Nat) : Nat → σ
  | 0 => s
  | n+1 => sinkAfter sink (sink s (messageAt mi)) (mi+1) n

/-! Embedding of the caller handleEdit: the edited-image map keyed by file
name concatenated with the lastModified stamp, the pre-call clearing write,
and the success-only population. -/

structure JsFile where
  name : String
  lastModified : Nat
  type : String
deriving DecidableEq

def fileKey (f : JsFile) : String := f.name ++ toString f.lastModified

/-- The editedImages record: none models an absent key, some none a key set
to null, some (some s) a key holding image data s. -/
def EditedImages : Type := String → Option (Option String)

/-- The spread update of the record at one key. -/
def setEntry (m : EditedImages) (k : String) (v : Option String) : EditedImages :=
  fun key => if key = k then some v else m key

structure EditUIState where
  prompt : String
  editedImages : EditedImages
  selected : Option JsFile
  isOutpaint : Bool

/-- Result of one handleEdit invocation: the map right after the pre-call
clearing write, the map after the operation resolves, and the error banner. -/
structure HandleEditResult where
  cleared : EditedImages
  final : EditedImages
  errorMsg : Option String

/-- handleEdit: precondition checks, clearing of the selected file's entry,
the await of outpaintImage or editImage (abstracted by the oracle and the
base64 payload of the selected file), then population on success only.  A
diverging call never resolves, so the map stays at its cleared state. -/
def handleEdit (calls : Nat → EditRequest → RemoteOutcome) (fuel : Nat)
    (base64Data : String) (st : EditUIState) : HandleEditResult :=
  match st.selected with
  | none => ⟨st.editedImages, st.editedImages, some "請先上傳並選擇一張圖片。"⟩
  | some f =>
    if st.isOutpaint = false ∧ jsTrim st.prompt = "" then
      ⟨st.editedImages, st.editedImages, some "請輸入編輯提示。"⟩
    else
      let key := fileKey f
      let m1 := setEntry st.editedImages key none
      let run :=
        if st.isOutpaint then outpaintImage calls base64Data f.type (some st.prompt) fuel
        else editImage calls base64Data f.type st.prompt fuel
      match run.outcome with
      | .image r => ⟨m1, setEntry m1 key (some r), none⟩
      | .error e => ⟨m1, m1, some e⟩
      | .diverges => ⟨m1, m1, none⟩

/-! Concrete responses and oracles used by witnesses and counterexamples. -/

def textOnlyPart : ContentPart := ⟨none, some "這是文字說明"⟩

def imgPartOf (d : String) : ContentPart := ⟨some ⟨d, "image/png"⟩, none⟩

def candOf (ps : List ContentPart) : Candidate := ⟨some ⟨some ps⟩⟩

def textResp : GenContentResponse := ⟨some [candOf [textOnlyPart]], some "這是文字說明"⟩

def imgResp (d : String) : GenContentResponse := ⟨some [candOf [imgPartOf d]], none⟩

/-- A response whose first candidate is text-only while its second candidate
carries an image-typed part. -/
def multiCandResp : GenContentResponse :=
  ⟨some [candOf [textOnlyPart], candOf [imgPartOf "IMG"]], some "這是文字說明"⟩

def laterCandCalls : Nat → EditRequest → RemoteOutcome :=
  fun n _ => if n = 0 then .ok multiCandResp else .fault (some "boom")

def twoStepCalls : Nat → EditRequest → RemoteOutcome :=
  fun n _ => if n = 0 then .ok textResp else .ok (imgResp "OK")

def textForeverCalls : Nat → EditRequest → RemoteOutcome :=
  fun _ _ => .ok textResp

def faultAt2Calls : Nat → EditRequest → RemoteOutcome :=
  fun n _ => if n = 0 then .ok textResp else .fault (some "net down")

/-- An oracle that answers every attempt with an image whose data equals the
prompt of the request, so that runs with different prompts are observably
different. -/
def echoCalls : Nat → EditRequest → RemoteOutcome :=
  fun _ req => .ok (imgResp req.prompt)

def multiForeverCalls : Nat → EditRequest → RemoteOutcome :=
  fun _ _ => .ok multiCandResp

def wOpA : VideoOperation := ⟨false, none⟩

def wOpB : VideoOperation := ⟨false, some ⟨none⟩⟩

def wOpDone : VideoOperation := ⟨true, some ⟨some [⟨some ⟨some "http://v"⟩⟩]⟩⟩

def wOpDoneNoUri : VideoOperation := ⟨true, none⟩

def wEnvTwoPolls : VideoEnv :=
  ⟨fun _ => .ok wOpA,
   fun i _ => if i = 0 then .ok wOpB else .ok wOpDone,
   fun _ => .ok ⟨true, "OK", "VID"⟩⟩

def wOpsNoUri : Nat → VideoOperation := fun i => if i = 0 then wOpA else wOpDoneNoUri

def wEnvNoUri : VideoEnv :=
  ⟨fun _ => .ok (wOpsNoUri 0),
   fun i _ => .ok (wOpsNoUri (i+1)),
   fun _ => .ok ⟨true, "OK", "VID"⟩⟩

def unitSink : Unit → String → Unit := fun _ _ => ()

def genOkCalls : Nat → String → Except (Option String) GenImagesResponse :=
  fun _ _ => .ok ⟨some [⟨⟨"BYTES"⟩⟩]⟩

def genEmptyCalls : Nat → String → Except (Option String) GenImagesResponse :=
  fun _ _ => .ok ⟨some []⟩

def wFile : JsFile := ⟨"photo.png", 42, "image/png"⟩

def wOtherKeyMap : EditedImages :=
  fun k => if k = "other7" then some (some "old") else none

def wEditState : EditUIState := ⟨"加一頂帽子", wOtherKeyMap, some wFile, false⟩

/-! Reduction lemmas for the editImage retry loop. -/

theorem editLoop_zero (calls : Nat → EditRequest → RemoteOutcome) (req : EditRequest)
    (n : Nat) : editLoop calls req n 0 = ⟨.diverges, 0, []⟩ := rfl

theorem editLoop_fault (calls : Nat → EditRequest → RemoteOutcome) (req : EditRequest)
    (n fuel : Nat) (fm : Option String) (hc : calls n req = .fault fm) :
    editLoop calls req n (fuel+1) = ⟨.error (editTranslate fm), 1, []⟩ := by
  simp [editLoop, hc]

theorem editLoop_success (calls : Nat → EditRequest → RemoteOutcome) (req : EditRequest)
    (n fuel : Nat) (r : GenContentResponse) (d : String)
    (hc : calls n req = .ok r) (hd : imageData r = some d) :
    editLoop calls req n (fuel+1) = ⟨.image d, 1, []⟩ := by
  simp [editLoop, hc, hd]

theorem editLoop_retry (calls : Nat → EditRequest → RemoteOutcome) (req : EditRequest)
    (n fuel : Nat) (r : GenContentResponse)
    (hc : calls n req = .ok r) (hd : imageData r = none) :
    editLoop calls req n (fuel+1) =
      ⟨(editLoop calls req (n+1) fuel).outcome,
        (editLoop calls req (n+1) fuel).numCalls + 1,
        RETRY_DELAY :: (editLoop calls req (n+1) fuel).delays⟩ := by
  simp [editLoop, hc, hd]

theorem candImagePart_of_no_image (c : Candidate) (h : candHasImagePart c = false) :
    candImagePart c = none := by
  obtain ⟨content⟩ := c
  cases content with
  | none => rfl
  | some ct =>
    obtain ⟨parts⟩ := ct
    cases parts with
    | none => rfl
    | some ps =>
      simp only [candHasImagePart] at h
      simp only [candImagePart]
      rw [List.find?_eq_none]
      intro x hx hpx
      have hne : ¬ (ps.any isImagePart = true) := by simp [h]
      exact hne (List.any_eq_true.mpr ⟨x, hx, hpx⟩)

theorem imageData_of_no_image (r : GenContentResponse) (h : respHasImagePart r = false) :
    imageData r = none := by
  obtain ⟨cands, txt⟩ := r
  cases cands with
  | none => rfl
  | some cs =>
    cases cs with
    | nil => rfl
    | cons c rest =>
      simp only [respHasImagePart, List.any_cons, Bool.or_eq_false_iff] at h
      simp [imageData, findImagePart, candImagePart_of_no_image c h.1]

/-- Characterization of the retry loop along a run whose first m attempts
return responses without a usable image: the loop walks through all m
attempts, paying one RETRY_DELAY each, and continues from attempt n+m with
the remaining fuel. -/
theorem editLoop_run (calls : Nat → EditRequest → RemoteOutcome) (req : EditRequest) :
    ∀ (m n fuel : Nat),
      (∀ i, i < m → ∃ r, calls (n+i) req = .ok r ∧ imageData r = none) → m ≤ fuel →
      editLoop calls req n fuel =
        ⟨(editLoop calls req (n+m) (fuel-m)).outcome,
          (editLoop calls req (n+m) (fuel-m)).numCalls + m,
          List.replicate m RETRY_DELAY ++ (editLoop calls req (n+m) (fuel-m)).delays⟩ := by
  intro m
  induction m with
  | zero =>
    intro n fuel _ _
    simp
  | succ m ih =>
    intro n fuel h hf
    obtain ⟨fuel', rfl⟩ : ∃ f, fuel = f + 1 := ⟨fuel - 1, by omega⟩
    obtain ⟨r, hc, hni⟩ := h 0 (by omega)
    rw [editLoop_retry calls req n fuel' r (by simpa using hc) hni]
    rw [ih (n+1) fuel'
      (fun i hi => by
        have hh := h (i+1) (by omega)
        have e : n + (i+1) = n + 1 + i := by omega
        rw [e] at hh
        exact hh)
      (by omega)]
    have e1 : n + 1 + m = n + (m + 1) := by omega
    have e2 : fuel' - m = fuel' + 1 - (m + 1) := by omega
    rw [e1, e2]
    simp [EditRun.mk.injEq, List.replicate_succ]
    omega

/-- C1 counterexample: a response to attempt 1 that does contain an
image-typed part ("IMG") — only in its second candidate — does not make
editImage return that image with one call and no delay, as the claim states
for k = 1; the code retries and performs a second remote call. -/
theorem editImage_later_candidate_cex :
    respHasImagePart multiCandResp = true
    ∧ editImage laterCandCalls "d" "m" "p" 5 =
        ⟨.error (editTranslate (some "boom")), 2, [RETRY_DELAY]⟩
    ∧ editImage laterCandCalls "d" "m" "p" 5 ≠ ⟨.image "IMG", 1, []⟩ := by
  decide

/-- C1 (amended): for every sequence of remote-call responses in which
attempts 1..k-1 contain no image-typed part and the FIRST CANDIDATE of
attempt k's response contains an image-typed part (regardless of any
accompanying text), editImage returns the bytes of the first such part,
performing exactly k remote calls and exactly k-1 fixed RETRY_DELAY
inter-attempt delays. -/
theorem editImage_success_at_k (calls : Nat → EditRequest → RemoteOutcome)
    (b mt p : String) (k : Nat) (r : GenContentResponse) (pt : ContentPart) (d : InlineData)
    (hk : 0 < k)
    (hpre : ∀ i, i < k - 1 → ∃ rr, calls i ⟨b, mt, p⟩ = .ok rr ∧ respHasImagePart rr = false)
    (hkth : calls (k-1) ⟨b, mt, p⟩ = .ok r)
    (hfind : findImagePart r = some pt)
    (hdata : pt.inlineData = some d)
    (fuel : Nat) (hfuel : k ≤ fuel) :
    editImage calls b mt p fuel = ⟨.image d.data, k, List.replicate (k-1) RETRY_DELAY⟩ := by
  unfold editImage
  rw [editLoop_run calls ⟨b, mt, p⟩ (k-1) 0 fuel
    (fun i hi => by
      obtain ⟨rr, h1, h2⟩ := hpre i hi
      exact ⟨rr, by simpa using h1, imageData_of_no_image rr h2⟩) (by omega)]
  obtain ⟨f', hf'⟩ : ∃ f, fuel - (k-1) = f + 1 := ⟨fuel - (k-1) - 1, by omega⟩
  rw [hf']
  have hid : imageData r = some d.data := by
    simp [imageData, hfind, hdata]
  rw [editLoop_success calls ⟨b, mt, p⟩ (0 + (k-1)) f' r d.data (by simpa using hkth) hid]
  simp [EditRun.mk.injEq]
  omega

/-- Witness for the amended C1 at k = 2: text-only response on attempt 1,
image on attempt 2. -/
theorem editImage_success_at_k_witness :
    editImage twoStepCalls "b" "m" "p" 3 =
      ⟨.image "OK", 2, List.replicate 1 RETRY_DELAY⟩ :=
  editImage_success_at_k twoStepCalls "b" "m" "p" 2 (imgResp "OK")
    (imgPartOf "OK") ⟨"OK", "image/png"⟩ (by decide)
    (fun i hi => by
      have hi0 : i = 0 := by omega
      subst hi0
      exact ⟨textResp, by decide, by decide⟩)
    (by decide) (by decide) (by decide) 3 (by decide)

/-- C2: when every response carries no image-typed part and no attempt
faults, editImage never terminates with success: it consumes its whole fuel
budget, performing one remote call and one fixed RETRY_DELAY delay per unit
of fuel, so for every bound n running with fuel n+1 performs more than n
attempts — there is no attempt ceiling. -/
theorem editImage_never_succeeds (calls : Nat → EditRequest → RemoteOutcome)
    (b mt p : String)
    (h : ∀ i, ∃ r, calls i ⟨b, mt, p⟩ = .ok r ∧ respHasImagePart r = false) (fuel : Nat) :
    editImage calls b mt p fuel = ⟨.diverges, fuel, List.replicate fuel RETRY_DELAY⟩ := by
  unfold editImage
  rw [editLoop_run calls ⟨b, mt, p⟩ fuel 0 fuel
    (fun i _ => by
      obtain ⟨r, h1, h2⟩ := h i
      exact ⟨r, by simpa using h1, imageData_of_no_image r h2⟩)
    (le_refl fuel)]
  simp [Nat.sub_self, editLoop_zero]

/-- Witness for C2 with a text-only oracle and fuel 4. -/
theorem editImage_never_succeeds_witness :
    editImage textForeverCalls "b" "m" "p" 4 =
      ⟨.diverges, 4, List.replicate 4 RETRY_DELAY⟩ :=
  editImage_never_succeeds textForeverCalls "b" "m" "p"
    (fun _ => ⟨textResp, rfl, by decide⟩) 4

/-- C3: if the remote call raises a fault on attempt j (earlier attempts
returning image-free responses), editImage performs no further attempts: it
stops after exactly j calls and j-1 delays with the single translated error,
whose message prefixes the operation name to the fault's message, falling
back to the generic unknown-error message when the fault carries none. -/
theorem editImage_fault_stops (calls : Nat → EditRequest → RemoteOutcome)
    (b mt p : String) (j : Nat) (fm : Option String)
    (hj : 0 < j)
    (hpre : ∀ i, i < j - 1 → ∃ r, calls i ⟨b, mt, p⟩ = .ok r ∧ respHasImagePart r = false)
    (hfault : calls (j-1) ⟨b, mt, p⟩ = .fault fm)
    (fuel : Nat) (hfuel : j ≤ fuel) :
    editImage calls b mt p fuel =
      ⟨.error (editTranslate fm), j, List.replicate (j-1) RETRY_DELAY⟩
    ∧ (∀ s, fm = some s → editTranslate fm = "編輯圖片失敗： " ++ s)
    ∧ (fm = none → editTranslate fm = "編輯圖片時發生未知的錯誤。") := by
  refine ⟨?_, ?_, ?_⟩
  · unfold editImage
    rw [editLoop_run calls ⟨b, mt, p⟩ (j-1) 0 fuel
      (fun i hi => by
        obtain ⟨r, h1, h2⟩ := hpre i hi
        exact ⟨r, by simpa using h1, imageData_of_no_image r h2⟩) (by omega)]
    obtain ⟨f', hf'⟩ : ∃ f, fuel - (j-1) = f + 1 := ⟨fuel - (j-1) - 1, by omega⟩
    rw [hf']
    rw [editLoop_fault calls ⟨b, mt, p⟩ (0 + (j-1)) f' fm (by simpa using hfault)]
    simp [EditRun.mk.injEq]
    omega
  · intro s hs
    rw [hs]
    rfl
  · intro hn
    rw [hn]
    rfl

/-- Witness for C3 at j = 2 with a fault carrying a message. -/
theorem editImage_fault_stops_witness :
    editImage faultAt2Calls "b" "m" "p" 5 =
      ⟨.error (editTranslate (some "net down")), 2, List.replicate 1 RETRY_DELAY⟩ :=
  (editImage_fault_stops faultAt2Calls "b" "m" "p" 2 (some "net down") (by decide)
    (fun i hi => by
      have hi0 : i = 0 := by omega
      subst hi0
      exact ⟨textResp, by decide, by decide⟩)
    (by decide) 5 (by decide)).1

/-- C9: the success check of editImage inspects only the first candidate:
when a response's first candidate has no image-typed part, the attempt is
treated as unsuccessful and retried (one more call after a RETRY_DELAY),
even though a later candidate of the very same response does contain an
image-typed part. -/
theorem editImage_first_candidate_only (calls : Nat → EditRequest → RemoteOutcome)
    (req : EditRequest) (n fuel : Nat)
    (r : GenContentResponse) (c0 : Candidate) (cs : List Candidate)
    (hc : calls n req = .ok r)
    (hcand : r.candidates = some (c0 :: cs))
    (h0 : candHasImagePart c0 = false)
    (hlater : ∃ c ∈ cs, candHasImagePart c = true) :
    respHasImagePart r = true ∧
    editLoop calls req n (fuel+1) =
      ⟨(editLoop calls req (n+1) fuel).outcome,
        (editLoop calls req (n+1) fuel).numCalls + 1,
        RETRY_DELAY :: (editLoop calls req (n+1) fuel).delays⟩ := by
  obtain ⟨c, hcmem, hcimg⟩ := hlater
  constructor
  · simp only [respHasImagePart, hcand, List.any_cons, Bool.or_eq_true, List.any_eq_true]
    exact Or.inr ⟨c, hcmem, hcimg⟩
  · apply editLoop_retry calls req n fuel r hc
    simp [imageData, findImagePart, hcand, candImagePart_of_no_image c0 h0]

/-- Witness for C9: the two-candidate response retried for ever. -/
theorem editImage_first_candidate_only_witness :
    respHasImagePart multiCandResp = true ∧
    editLoop multiForeverCalls ⟨"b", "m", "p"⟩ 0 3 =
      ⟨(editLoop multiForeverCalls ⟨"b", "m", "p"⟩ 1 2).outcome,
        (editLoop multiForeverCalls ⟨"b", "m", "p"⟩ 1 2).numCalls + 1,
        RETRY_DELAY :: (editLoop multiForeverCalls ⟨"b", "m", "p"⟩ 1 2).delays⟩ :=
  editImage_first_candidate_only multiForeverCalls ⟨"b", "m", "p"⟩ 0 2
    multiCandResp (candOf [textOnlyPart]) [candOf [imgPartOf "IMG"]]
    (by decide) (by decide) (by decide) (by decide)

/-- C6 counterexample: the prompt made of a single space is non-empty, yet
outpaintImage with it does not behave like editImage with that prompt — the
code falls back to the default prompt because the trimmed prompt is empty,
observable through an oracle echoing the prompt. -/
theorem outpaint_whitespace_prompt_cex :
    (" " ≠ "")
    ∧ outpaintImage echoCalls "b" "m" (some " ") 1 ≠ editImage echoCalls "b" "m" " " 1
    ∧ outpaintImage echoCalls "b" "m" (some " ") 1 =
        editImage echoCalls "b" "m" defaultOutpaintPrompt 1 := by
  decide

/-- C6 (amended): outpaintImage with an absent, empty, or whitespace-only
prompt behaves identically to editImage with the fixed default outpaint
prompt; with a prompt that is non-empty after trimming it behaves
identically to editImage with that prompt; and upscaleImage behaves
identically to editImage with the fixed upscale prompt — for every oracle,
image, MIME type and fuel. -/
theorem outpaint_upscale_delegate (calls : Nat → EditRequest → RemoteOutcome)
    (b mt : String) (fuel : Nat) :
    outpaintImage calls b mt none fuel = editImage calls b mt defaultOutpaintPrompt fuel
    ∧ (∀ s, jsTrim s = "" →
        outpaintImage calls b mt (some s) fuel = editImage calls b mt defaultOutpaintPrompt fuel)
    ∧ (∀ s, jsTrim s ≠ "" →
        outpaintImage calls b mt (some s) fuel = editImage calls b mt s fuel)
    ∧ upscaleImage calls b mt fuel = editImage calls b mt upscalePrompt fuel := by
  refine ⟨rfl, ?_, ?_, rfl⟩
  · intro s hs
    simp [outpaintImage, hs]
  · intro s hs
    have hne : s ≠ "" := by
      intro he
      subst he
      exact hs (by decide)
    simp [outpaintImage, hne, hs]

/-- Witness for the amended C6 with a trim-non-empty prompt. -/
theorem outpaint_upscale_delegate_witness :
    outpaintImage echoCalls "b" "m" (some "加一座城堡") 1 =
      editImage echoCalls "b" "m" "加一座城堡" 1 :=
  (outpaint_upscale_delegate echoCalls "b" "m" 1).2.2.1 "加一座城堡" (by decide)

/-! Reduction lemmas for the video polling loop. -/

theorem genLoop_done {σ : Type} (sink : σ → String → σ) (env : VideoEnv) (apiKey : String)
    (fuel : Nat) (op : VideoOperation) (mi pi : Nat) (s : σ) (hd : op.done = true) :
    genLoop sink env apiKey fuel op mi pi s = finishVideo sink s env apiKey op := by
  rw [genLoop.eq_def]
  simp [hd]

theorem genLoop_notDone_step {σ : Type} (sink : σ → String → σ) (env : VideoEnv)
    (apiKey : String) (fuel : Nat) (op op2 : VideoOperation) (mi pi : Nat) (s : σ)
    (hd : op.done = false) (hp : env.getOp pi op = .ok op2) :
    genLoop sink env apiKey (fuel+1) op mi pi s =
      (⟨VEvent.progress (messageAt mi) :: VEvent.wait POLLING_INTERVAL :: VEvent.poll op ::
          (genLoop sink env apiKey fuel op2 (mi+1) (pi+1) (sink s (messageAt mi))).1.events,
        (genLoop sink env apiKey fuel op2 (mi+1) (pi+1) (sink s (messageAt mi))).1.outcome⟩,
       (genLoop sink env apiKey fuel op2 (mi+1) (pi+1) (sink s (messageAt mi))).2) := by
  rw [genLoop.eq_def]
  simp [hd, hp]

theorem finishVideo_none {σ : Type} (sink : σ → String → σ) (s : σ) (env : VideoEnv)
    (apiKey : String) (op : VideoOperation) (hu : videoUri op = none) :
    finishVideo sink s env apiKey op =
      (⟨[], .error (vTranslate (some videoNoLinkMsg))⟩, s) := by
  simp [finishVideo, hu]

theorem finishVideo_events_some {σ : Type} (sink : σ → String → σ) (s : σ) (env : VideoEnv)
    (apiKey : String) (op : VideoOperation) (link : String) (hu : videoUri op = some link) :
    (finishVideo sink s env apiKey op).1.events =
      [VEvent.progress videoFetchMsg, VEvent.fetchGet (link ++ "&key=" ++ apiKey)] := by
  cases hf : env.fetchUrl (link ++ "&key=" ++ apiKey) with
  | error m => simp [finishVideo, hu, hf]
  | ok resp =>
    by_cases hok : resp.ok = true
    · simp [finishVideo, hu, hf, hok]
    · simp [finishVideo, hu, hf, hok]

/-- Characterization of the polling loop along a trajectory of n not-done
statuses followed by a done status: the loop emits the rotating messages in
cyclic order interleaved with waits and polls of the successive handles,
then hands the final operation to the retrieval step. -/
theorem genLoop_traj {σ : Type} (sink : σ → String → σ) (env : VideoEnv) (apiKey : String)
    (ops : Nat → VideoOperation) :
    ∀ (n j mi : Nat) (s : σ) (fuel : Nat),
      (∀ i, i < n → (ops (j+i)).done = false ∧ env.getOp (j+i) (ops (j+i)) = .ok (ops (j+i+1))) →
      (ops (j+n)).done = true → n ≤ fuel →
      genLoop sink env apiKey fuel (ops j) mi j s =
        (⟨pollTrace ops mi j n ++
            (finishVideo sink (sinkAfter sink s mi n) env apiKey (ops (j+n))).1.events,
          (finishVideo sink (sinkAfter sink s mi n) env apiKey (ops (j+n))).1.outcome⟩,
         (finishVideo sink (sinkAfter sink s mi n) env apiKey (ops (j+n))).2) := by
  intro n
  induction n with
  | zero =>
    intro j mi s fuel hstep hdone hfuel
    rw [genLoop_done sink env apiKey fuel (ops j) mi j s (by simpa using hdone)]
    rfl
  | succ n ih =>
    intro j mi s fuel hstep hdone hfuel
    obtain ⟨f, rfl⟩ : ∃ f, fuel = f + 1 := ⟨fuel - 1, by omega⟩
    obtain ⟨hd0, hp0⟩ := hstep 0 (by omega)
    rw [genLoop_notDone_step sink env apiKey f (ops j) (ops (j+1)) mi j s
      (by simpa using hd0) (by simpa using hp0)]
    have hdone' : (ops (j+1+n)).done = true := by
      have e : j + 1 + n = j + (n+1) := by omega
      rw [e]
      exact hdone
    rw [ih (j+1) (mi+1) (sink s (messageAt mi)) f
      (fun i hi => by
        have h := hstep (i+1) (by omega)
        have e : j + (i+1) = j + 1 + i := by omega
        rw [e] at h
        exact h)
      hdone' (by omega)]
    have e : j + 1 + n = j + (n+1) := by omega
    rw [e]
    rfl

/-- Characterization of a whole generateVideo run along a status trajectory:
the initialization message and submission events, the polling trace, then the
retrieval step applied to the final operation. -/
theorem generateVideo_traj {σ : Type} (sink : σ → String → σ) (s0 : σ) (env : VideoEnv)
    (apiKey prompt : String) (b64 mime : Option String)
    (ops : Nat → VideoOperation) (n fuel : Nat)
    (hs : env.submit (mkVideoRequest prompt b64 mime) = .ok (ops 0))
    (hstep : ∀ i, i < n → (ops i).done = false ∧ env.getOp i (ops i) = .ok (ops (i+1)))
    (hdone : (ops n).done = true)
    (hfuel : n ≤ fuel) :
    generateVideo sink s0 env apiKey prompt b64 mime fuel =
      (⟨VEvent.progress videoInitMsg :: VEvent.submitted ::
          (pollTrace ops 0 0 n ++
            (finishVideo sink (sinkAfter sink (sink s0 videoInitMsg) 0 n) env apiKey
              (ops n)).1.events),
        (finishVideo sink (sinkAfter sink (sink s0 videoInitMsg) 0 n) env apiKey
          (ops n)).1.outcome⟩,
       (finishVideo sink (sinkAfter sink (sink s0 videoInitMsg) 0 n) env apiKey (ops n)).2) := by
  have htraj := genLoop_traj sink env apiKey ops n 0 0 (sink s0 videoInitMsg) fuel
    (fun i hi => by
      have h := hstep i hi
      have e : 0 + i = i := by omega
      rw [e]
      exact h)
    (by
      have e : 0 + n = n := by omega
      rw [e]
      exact hdone)
    hfuel
  have e : 0 + n = n := by omega
  rw [e] at htraj
  simp only [generateVideo, hs]
  rw [htraj]

theorem genLoop_fuelZero {σ : Type} (sink : σ → String → σ) (env : VideoEnv)
    (apiKey : String) (op : VideoOperation) (mi pi : Nat) (s : σ) (hd : op.done = false) :
    genLoop sink env apiKey 0 op mi pi s = (⟨[], .diverges⟩, s) := by
  rw [genLoop.eq_def]
  simp [hd]

theorem genLoop_notDone_fault {σ : Type} (sink : σ → String → σ) (env : VideoEnv)
    (apiKey : String) (fuel : Nat) (op : VideoOperation) (mi pi : Nat) (s : σ)
    (m : Option String) (hd : op.done = false) (hp : env.getOp pi op = .error m) :
    genLoop sink env apiKey (fuel+1) op mi pi s =
      (⟨[VEvent.progress (messageAt mi), VEvent.wait POLLING_INTERVAL, VEvent.poll op],
        .error (vTranslate m)⟩, sink s (messageAt mi)) := by
  rw [genLoop.eq_def]
  simp [hd, hp]

theorem countEv_nil (p : VEvent → Bool) : countEv p [] = 0 := rfl

theorem countEv_cons (p : VEvent → Bool) (e : VEvent) (evs : List VEvent) :
    countEv p (e :: evs) = (if p e then 1 else 0) + countEv p evs := by
  by_cases h : p e = true
  · simp [countEv, List.filter_cons, h]
    omega
  · simp [countEv, List.filter_cons, h]

theorem countEv_append (p : VEvent → Bool) (a b : List VEvent) :
    countEv p (a ++ b) = countEv p a + countEv p b := by
  simp [countEv, List.filter_append]

/-- A polling trace contains no retrieval event. -/
theorem pollTrace_no_fetch (ops : Nat → VideoOperation) :
    ∀ (n mi j : Nat), countEv isFetchEv (pollTrace ops mi j n) = 0 := by
  intro n
  induction n with
  | zero => intro mi j; rfl
  | succ n ih =>
    intro mi j
    rw [pollTrace, countEv_cons, countEv_cons, countEv_cons]
    simp [isFetchEv]
    exact ih (mi+1) (j+1)

/-- The run component of the retrieval step does not depend on the progress
sink or its state. -/
theorem finishVideo_run_indep {σ1 σ2 : Type} (sink1 : σ1 → String → σ1)
    (sink2 : σ2 → String → σ2) (s1 : σ1) (s2 : σ2) (env : VideoEnv) (apiKey : String)
    (op : VideoOperation) :
    (finishVideo sink1 s1 env apiKey op).1 = (finishVideo sink2 s2 env apiKey op).1 := by
  cases hv : videoUri op with
  | none => simp [finishVideo, hv]
  | some link =>
    cases hf : env.fetchUrl (link ++ "&key=" ++ apiKey) with
    | error m => simp [finishVideo, hv, hf]
    | ok resp =>
      by_cases hok : resp.ok = true
      · simp [finishVideo, hv, hf, hok]
      · simp [finishVideo, hv, hf, hok]

/-- The run component of the polling loop does not depend on the progress
sink or its state. -/
theorem genLoop_run_indep {σ1 σ2 : Type} (sink1 : σ1 → String → σ1)
    (sink2 : σ2 → String → σ2) (env : VideoEnv) (apiKey : String) :
    ∀ (fuel : Nat) (op : VideoOperation) (mi pi : Nat) (s1 : σ1) (s2 : σ2),
      (genLoop sink1 env apiKey fuel op mi pi s1).1 =
        (genLoop sink2 env apiKey fuel op mi pi s2).1 := by
  intro fuel
  induction fuel with
  | zero =>
    intro op mi pi s1 s2
    cases hd : op.done with
    | true =>
      rw [genLoop_done sink1 env apiKey 0 op mi pi s1 hd,
        genLoop_done sink2 env apiKey 0 op mi pi s2 hd]
      exact finishVideo_run_indep sink1 sink2 s1 s2 env apiKey op
    | false =>
      rw [genLoop_fuelZero sink1 env apiKey op mi pi s1 hd,
        genLoop_fuelZero sink2 env apiKey op mi pi s2 hd]
  | succ f ih =>
    intro op mi pi s1 s2
    cases hd : op.done with
    | true =>
      rw [genLoop_done sink1 env apiKey (f+1) op mi pi s1 hd,
        genLoop_done sink2 env apiKey (f+1) op mi pi s2 hd]
      exact finishVideo_run_indep sink1 sink2 s1 s2 env apiKey op
    | false =>
      cases hp : env.getOp pi op with
      | error m =>
        rw [genLoop_notDone_fault sink1 env apiKey f op mi pi s1 m hd hp,
          genLoop_notDone_fault sink2 env apiKey f op mi pi s2 m hd hp]
      | ok op2 =>
        rw [genLoop_notDone_step sink1 env apiKey f op op2 mi pi s1 hd hp,
          genLoop_notDone_step sink2 env apiKey f op op2 mi pi s2 hd hp]
        rw [ih op2 (mi+1) (pi+1) (sink1 s1 (messageAt mi)) (sink2 s2 (messageAt mi))]

/-- The final sink state of the retrieval step is the fold of the sink over
the progress messages it emits. -/
theorem finishVideo_sink {σ : Type} (sink : σ → String → σ) (s : σ) (env : VideoEnv)
    (apiKey : String) (op : VideoOperation) :
    (finishVideo sink s env apiKey op).2 =
      List.foldl sink s (progressMsgs (finishVideo sink s env apiKey op).1.events) := by
  cases hv : videoUri op with
  | none => simp [finishVideo, hv, progressMsgs]
  | some link =>
    cases hf : env.fetchUrl (link ++ "&key=" ++ apiKey) with
    | error m => simp [finishVideo, hv, hf, progressMsgs]
    | ok resp =>
      by_cases hok : resp.ok = true
      · simp [finishVideo, hv, hf, hok, progressMsgs]
      · simp [finishVideo, hv, hf, hok, progressMsgs]

/-- The final sink state of the polling loop is the fold of the sink over the
progress messages of its event trace. -/
theorem genLoop_sink {σ : Type} (sink : σ → String → σ) (env : VideoEnv) (apiKey : String) :
    ∀ (fuel : Nat) (op : VideoOperation) (mi pi : Nat) (s : σ),
      (genLoop sink env apiKey fuel op mi pi s).2 =
        List.foldl sink s (progressMsgs (genLoop sink env apiKey fuel op mi pi s).1.events) := by
  intro fuel
  induction fuel with
  | zero =>
    intro op mi pi s
    cases hd : op.done with
    | true =>
      rw [genLoop_done sink env apiKey 0 op mi pi s hd]
      exact finishVideo_sink sink s env apiKey op
    | false =>
      rw [genLoop_fuelZero sink env apiKey op mi pi s hd]
      rfl
  | succ f ih =>
    intro op mi pi s
    cases hd : op.done with
    | true =>
      rw [genLoop_done sink env apiKey (f+1) op mi pi s hd]
      exact finishVideo_sink sink s env apiKey op
    | false =>
      cases hp : env.getOp pi op with
      | error m =>
        rw [genLoop_notDone_fault sink env apiKey f op mi pi s m hd hp]
        rfl
      | ok op2 =>
        rw [genLoop_notDone_step sink env apiKey f op op2 mi pi s hd hp]
        have h := ih op2 (mi+1) (pi+1) (sink s (messageAt mi))
        simp only [progressMsgs, List.filterMap_cons] at *
        simpa using h

/-- C4: for the status sequence not-done, not-done, done-with-locator,
generateVideo performs exactly one submission, exactly 2 polls and exactly
one final retrieval; each poll is passed the most recently returned handle
(op0 then op1); and the rotating progress messages are consumed in fixed
cyclic order starting at index 0, each emitted strictly before the wait that
follows it, as the full event trace shows. -/
theorem generateVideo_two_polls {σ : Type} (sink : σ → String → σ) (s0 : σ)
    (env : VideoEnv) (apiKey prompt : String) (b64 mime : Option String)
    (op0 op1 op2 : VideoOperation) (u : String) (fuel : Nat)
    (hs : env.submit (mkVideoRequest prompt b64 mime) = .ok op0)
    (h0 : op0.done = false) (hp0 : env.getOp 0 op0 = .ok op1)
    (h1 : op1.done = false) (hp1 : env.getOp 1 op1 = .ok op2)
    (h2 : op2.done = true) (hu : videoUri op2 = some u)
    (hfuel : 2 ≤ fuel) :
    (generateVideo sink s0 env apiKey prompt b64 mime fuel).1.events =
      [VEvent.progress videoInitMsg, VEvent.submitted,
       VEvent.progress (messageAt 0), VEvent.wait POLLING_INTERVAL, VEvent.poll op0,
       VEvent.progress (messageAt 1), VEvent.wait POLLING_INTERVAL, VEvent.poll op1,
       VEvent.progress videoFetchMsg, VEvent.fetchGet (u ++ "&key=" ++ apiKey)]
    ∧ countEv isSubmitEv (generateVideo sink s0 env apiKey prompt b64 mime fuel).1.events = 1
    ∧ countEv isPollEv (generateVideo sink s0 env apiKey prompt b64 mime fuel).1.events = 2
    ∧ countEv isFetchEv (generateVideo sink s0 env apiKey prompt b64 mime fuel).1.events = 1
    ∧ messageAt 0 = "正在設定場景..." ∧ messageAt 1 = "AI 正在發揮創意..." := by
  have htraj := generateVideo_traj sink s0 env apiKey prompt b64 mime
    (fun i => if i = 0 then op0 else if i = 1 then op1 else op2) 2 fuel hs
    (fun i hi => by
      match i, hi with
      | 0, _ => exact ⟨h0, hp0⟩
      | 1, _ => exact ⟨h1, hp1⟩
      | i+2, hi => exact absurd hi (by omega))
    h2 hfuel
  have hu' : videoUri ((fun i => if i = 0 then op0 else if i = 1 then op1 else op2) 2) =
      some u := hu
  have hev : (generateVideo sink s0 env apiKey prompt b64 mime fuel).1.events =
      [VEvent.progress videoInitMsg, VEvent.submitted,
       VEvent.progress (messageAt 0), VEvent.wait POLLING_INTERVAL, VEvent.poll op0,
       VEvent.progress (messageAt 1), VEvent.wait POLLING_INTERVAL, VEvent.poll op1,
       VEvent.progress videoFetchMsg, VEvent.fetchGet (u ++ "&key=" ++ apiKey)] := by
    rw [htraj]
    rw [finishVideo_events_some sink _ env apiKey _ u hu']
    rfl
  refine ⟨hev, ?_, ?_, ?_, rfl, rfl⟩
  · rw [hev]
    rfl
  · rw [hev]
    rfl
  · rw [hev]
    rfl

/-- Witness for C4 on a concrete environment with two polls and fuel 2. -/
theorem generateVideo_two_polls_witness :
    (generateVideo unitSink () wEnvTwoPolls "KEY" "p" none none 2).1.events =
      [VEvent.progress videoInitMsg, VEvent.submitted,
       VEvent.progress (messageAt 0), VEvent.wait POLLING_INTERVAL, VEvent.poll wOpA,
       VEvent.progress (messageAt 1), VEvent.wait POLLING_INTERVAL, VEvent.poll wOpB,
       VEvent.progress videoFetchMsg, VEvent.fetchGet ("http://v" ++ "&key=" ++ "KEY")] :=
  (generateVideo_two_polls unitSink () wEnvTwoPolls "KEY" "p" none none wOpA wOpB wOpDone
    "http://v" 2 rfl rfl rfl rfl rfl rfl rfl (by omega)).1

/-- C5: whenever the job reaches done status through any trajectory of polls
but the completed status carries no result locator, generateVideo terminates
with the fatal translated error and performs zero HTTP retrieval attempts. -/
theorem generateVideo_no_locator_fatal {σ : Type} (sink : σ → String → σ) (s0 : σ)
    (env : VideoEnv) (apiKey prompt : String) (b64 mime : Option String)
    (ops : Nat → VideoOperation) (n fuel : Nat)
    (hs : env.submit (mkVideoRequest prompt b64 mime) = .ok (ops 0))
    (hstep : ∀ i, i < n → (ops i).done = false ∧ env.getOp i (ops i) = .ok (ops (i+1)))
    (hdone : (ops n).done = true)
    (hu : videoUri (ops n) = none)
    (hfuel : n ≤ fuel) :
    (generateVideo sink s0 env apiKey prompt b64 mime fuel).1.outcome =
      .error (vTranslate (some videoNoLinkMsg))
    ∧ countEv isFetchEv (generateVideo sink s0 env apiKey prompt b64 mime fuel).1.events = 0 := by
  have htraj := generateVideo_traj sink s0 env apiKey prompt b64 mime ops n fuel hs hstep
    hdone hfuel
  rw [finishVideo_none sink (sinkAfter sink (sink s0 videoInitMsg) 0 n) env apiKey (ops n) hu]
    at htraj
  constructor
  · rw [htraj]
  · rw [htraj]
    show countEv isFetchEv
      (VEvent.progress videoInitMsg :: VEvent.submitted :: (pollTrace ops 0 0 n ++ [])) = 0
    rw [countEv_cons, countEv_cons, countEv_append]
    simp [isFetchEv, pollTrace_no_fetch, countEv_nil]

/-- Witness for C5 on a concrete environment whose done status has no
locator, after one poll. -/
theorem generateVideo_no_locator_fatal_witness :
    (generateVideo unitSink () wEnvNoUri "KEY" "p" none none 1).1.outcome =
      .error (vTranslate (some videoNoLinkMsg))
    ∧ countEv isFetchEv (generateVideo unitSink () wEnvNoUri "KEY" "p" none none 1).1.events
        = 0 :=
  generateVideo_no_locator_fatal unitSink () wEnvNoUri "KEY" "p" none none wOpsNoUri 1 1
    rfl
    (fun i hi => by
      match i, hi with
      | 0, _ => exact ⟨rfl, rfl⟩
      | i+1, hi => exact absurd hi (by omega))
    rfl rfl (by omega)

/-- C8: the progress callback does not influence control flow: for any two
sinks in any two states, the same environment produces the same events (the
same submissions, polls, and retrieval) and the same single terminal
outcome; and the sink is invoked exactly on the progress messages of the
trace, in order — all emitted strictly before the terminal resolution the
run component carries. -/
theorem generateVideo_sink_noninterference {σ1 σ2 : Type} (sink1 : σ1 → String → σ1)
    (sink2 : σ2 → String → σ2) (s1 : σ1) (s2 : σ2) (env : VideoEnv)
    (apiKey prompt : String) (b64 mime : Option String) (fuel : Nat) :
    (generateVideo sink1 s1 env apiKey prompt b64 mime fuel).1 =
      (generateVideo sink2 s2 env apiKey prompt b64 mime fuel).1
    ∧ (generateVideo sink1 s1 env apiKey prompt b64 mime fuel).2 =
        List.foldl sink1 s1
          (progressMsgs (generateVideo sink1 s1 env apiKey prompt b64 mime fuel).1.events) := by
  constructor
  · simp only [generateVideo]
    cases hsub : env.submit (mkVideoRequest prompt b64 mime) with
    | error m => rfl
    | ok op =>
      dsimp only
      rw [genLoop_run_indep sink1 sink2 env apiKey fuel op 0 0 (sink1 s1 videoInitMsg)
        (sink2 s2 videoInitMsg)]
  · simp only [generateVideo]
    cases hsub : env.submit (mkVideoRequest prompt b64 mime) with
    | error m => rfl
    | ok op =>
      dsimp only
      have h := genLoop_sink sink1 env apiKey fuel op 0 0 (sink1 s1 videoInitMsg)
      simp only [progressMsgs, List.filterMap_cons] at *
      simpa using h

/-- C7: generateImage performs exactly one remote call with no retry loop:
when the response's list of generated images is non-empty it returns the
first image's bytes; when the list is empty or absent it fails immediately
with the translated error; a fault is translated by the catch clause —
in every case the call count is exactly 1. -/
theorem generateImage_single_call
    (calls : Nat → String → Except (Option String) GenImagesResponse) (prompt : String) :
    (generateImage calls prompt).numCalls = 1
    ∧ (∀ r g rest, calls 0 prompt = .ok r → r.generatedImages = some (g :: rest) →
        (generateImage calls prompt).outcome = .ok g.image.imageBytes)
    ∧ (∀ r, calls 0 prompt = .ok r →
        (r.generatedImages = some [] ∨ r.generatedImages = none) →
        (generateImage calls prompt).outcome =
          .error (genTranslate (some "API 未返回任何圖片。")))
    ∧ (∀ m, calls 0 prompt = .error m →
        (generateImage calls prompt).outcome = .error (genTranslate m)) := by
  refine ⟨?_, ?_, ?_, ?_⟩
  · cases hc : calls 0 prompt with
    | error m => simp [generateImage, hc]
    | ok r =>
      cases hg : r.generatedImages with
      | none => simp [generateImage, hc, hg]
      | some gs =>
        cases gs with
        | nil => simp [generateImage, hc, hg]
        | cons g rest => simp [generateImage, hc, hg]
  · intro r g rest hc hg
    simp [generateImage, hc, hg]
  · intro r hc hg
    rcases hg with hg | hg <;> simp [generateImage, hc, hg]
  · intro m hc
    simp [generateImage, hc]

/-- Witness for C7: an oracle returning one image, and one returning the
empty list. -/
theorem generateImage_single_call_witness :
    (generateImage genOkCalls "p").outcome = .ok "BYTES"
    ∧ (generateImage genOkCalls "p").numCalls = 1
    ∧ (generateImage genEmptyCalls "p").outcome =
        .error (genTranslate (some "API 未返回任何圖片。")) :=
  ⟨(generateImage_single_call genOkCalls "p").2.1 ⟨some [⟨⟨"BYTES"⟩⟩]⟩ ⟨⟨"BYTES"⟩⟩ [] rfl rfl,
   (generateImage_single_call genOkCalls "p").1,
   (generateImage_single_call genEmptyCalls "p").2.2.1 ⟨some []⟩ rfl (Or.inl rfl)⟩

/-- C10: when the preconditions pass, handleEdit touches only the
edited-image map entry keyed by the selected file's name plus lastModified:
that entry is cleared (set to null) before the call and populated exactly
when the call succeeds; every other key is unchanged in both the cleared and
the final map, on the success, error and divergence paths alike. -/
theorem handleEdit_frame (calls : Nat → EditRequest → RemoteOutcome) (fuel : Nat)
    (base64Data : String) (st : EditUIState) (f : JsFile)
    (hsel : st.selected = some f)
    (hpre : st.isOutpaint = true ∨ jsTrim st.prompt ≠ "") :
    ((handleEdit calls fuel base64Data st).cleared (fileKey f) = some none)
    ∧ (∀ k, k ≠ fileKey f →
        (handleEdit calls fuel base64Data st).cleared k = st.editedImages k)
    ∧ (∀ k, k ≠ fileKey f →
        (handleEdit calls fuel base64Data st).final k = st.editedImages k)
    ∧ (∀ r,
        (if st.isOutpaint then outpaintImage calls base64Data f.type (some st.prompt) fuel
         else editImage calls base64Data f.type st.prompt fuel).outcome = .image r →
        (handleEdit calls fuel base64Data st).final (fileKey f) = some (some r))
    ∧ ((∀ r,
        (if st.isOutpaint then outpaintImage calls base64Data f.type (some st.prompt) fuel
         else editImage calls base64Data f.type st.prompt fuel).outcome ≠ .image r) →
        (handleEdit calls fuel base64Data st).final (fileKey f) = some none) := by
  have hguard : ¬(st.isOutpaint = false ∧ jsTrim st.prompt = "") := by
    rcases hpre with h | h
    · simp [h]
    · simp [h]
  cases hr : (if st.isOutpaint then outpaintImage calls base64Data f.type (some st.prompt) fuel
      else editImage calls base64Data f.type st.prompt fuel).outcome with
  | image r0 =>
    refine ⟨?_, ?_, ?_, ?_, ?_⟩
    · simp [handleEdit, hsel, hguard, hr, setEntry]
    · intro k hk
      simp [handleEdit, hsel, hguard, hr, setEntry, hk]
    · intro k hk
      simp [handleEdit, hsel, hguard, hr, setEntry, hk]
    · intro r hr'
      have : r0 = r := (EditOutcome.image.injEq r0 r).mp hr'
      subst this
      simp [handleEdit, hsel, hguard, hr, setEntry]
    · intro hall
      exact absurd rfl (hall r0)
  | error e0 =>
    refine ⟨?_, ?_, ?_, ?_, ?_⟩
    · simp [handleEdit, hsel, hguard, hr, setEntry]
    · intro k hk
      simp [handleEdit, hsel, hguard, hr, setEntry, hk]
    · intro k hk
      simp [handleEdit, hsel, hguard, hr, setEntry, hk]
    · intro r hr'
      exact absurd hr' (by simp)
    · intro hall
      simp [handleEdit, hsel, hguard, hr, setEntry]
  | diverges =>
    refine ⟨?_, ?_, ?_, ?_, ?_⟩
    · simp [handleEdit, hsel, hguard, hr, setEntry]
    · intro k hk
      simp [handleEdit, hsel, hguard, hr, setEntry, hk]
    · intro k hk
      simp [handleEdit, hsel, hguard, hr, setEntry, hk]
    · intro r hr'
      exact absurd hr' (by simp)
    · intro hall
      simp [handleEdit, hsel, hguard, hr, setEntry]

/-- Witness for C10 on a concrete state holding one other key, with a call
that succeeds on the second attempt. -/
theorem handleEdit_frame_witness :
    (handleEdit twoStepCalls 3 "B64" wEditState).cleared (fileKey wFile) = some none
    ∧ (handleEdit twoStepCalls 3 "B64" wEditState).final "other7" =
        wEditState.editedImages "other7"
    ∧ (handleEdit twoStepCalls 3 "B64" wEditState).final (fileKey wFile) = some (some "OK") := by
  have h := handleEdit_frame twoStepCalls 3 "B64" wEditState wFile rfl (Or.inr (by decide))
  exact ⟨h.1, h.2.2.1 "other7" (by decide), h.2.2.2.1 "OK" (by decide)⟩

end GeminiService
